import Mathlib

/-!
Shallow embedding of `dynfunc` (src/dynfunc/__init__.py): a parameter
resolver (`populate_args`, with per-parameter lookup `_get_arg_value`) and a
call wrapper (`call_with_args`).  Python values are a type parameter `α`,
dicts are association lists with unique keys, exceptions are `Except`
errors.  The Python call convention `func(*args, **kwargs)` is modelled by
`bindCall`/`callPython` for fixed-arity signatures (the resolver rejects
variable-arity signatures before any call happens).
-/

set_option autoImplicit false

/-- Equality on `Except` results is decidable, so concrete runs of the
embedded functions can be checked by `decide`. -/
instance {ε α : Type} [DecidableEq ε] [DecidableEq α] : DecidableEq (Except ε α) :=
  fun x y =>
    match x, y with
    | Except.ok a, Except.ok b =>
      if h : a = b then Decidable.isTrue (congrArg Except.ok h)
      else Decidable.isFalse (fun hc => h (Except.ok.inj hc))
    | Except.ok _, Except.error _ => Decidable.isFalse (fun hc => Except.noConfusion hc)
    | Except.error _, Except.ok _ => Decidable.isFalse (fun hc => Except.noConfusion hc)
    | Except.error a, Except.error b =>
      if h : a = b then Decidable.isTrue (congrArg Except.error h)
      else Decidable.isFalse (fun hc => h (Except.error.inj hc))

/-- Parameter passing kinds, exactly the five kinds of Python's
`inspect.Parameter` (so the source's final "Unknown parameter type" branch
is unreachable). -/
inductive Kind : Type where
  | POSITIONAL_ONLY
  | POSITIONAL_OR_KEYWORD
  | VAR_POSITIONAL
  | KEYWORD_ONLY
  | VAR_KEYWORD
deriving DecidableEq

/-- One declared parameter of a callable: its name, passing kind, and default
value; `none` models `Parameter.empty` (no default). -/
structure Param (α : Type) : Type where
  name : String
  kind : Kind
  default : Option α
deriving DecidableEq

/-- Python dict lookup `d[k]`: the entry with the matching key (`none` models
the `KeyError` case).  A dict is an insertion-ordered association list. -/
def dict_get {α : Type} (d : List (String × α)) (k : String) : Option α :=
  match d with
  | [] => none
  | (k2, v) :: rest => if k2 = k then some v else dict_get rest k

/-- Python `list(d.keys())`: the keys in insertion order. -/
def dict_keys {α : Type} (d : List (String × α)) : List String :=
  d.map Prod.fst

/-- Python dict assignment `d[k] = v`: overwrite in place if the key exists,
else append. -/
def dict_set {α : Type} (d : List (String × α)) (k : String) (v : α) :
    List (String × α) :=
  match d with
  | [] => [(k, v)]
  | (k2, v2) :: rest =>
    if k2 = k then (k, v) :: rest else (k2, v2) :: dict_set rest k v

/-- Python `del d[k]` (for a present key): drop the entry with the key. -/
def dict_del {α : Type} (d : List (String × α)) (k : String) :
    List (String × α) :=
  match d with
  | [] => []
  | (k2, v) :: rest => if k2 = k then rest else (k2, v) :: dict_del rest k

/-- The exceptions `populate_args` can raise: `ParameterError(name, valid_args)`
(the source's own exception class, carrying the missing parameter name and
the keys present in the data mapping) and `TypeError(msg)` for unsupported
parameter kinds.  Distinct constructors model distinct exception classes. -/
inductive PopErr : Type where
  | parameterError (name : String) (valid_args : List String)
  | typeError (msg : String)
deriving DecidableEq

/-- Source `_get_arg_value(param, data_map)`: try `data_map[param.name]`; on
`KeyError` return the default if the parameter declares one, otherwise raise
`ParameterError(e.args[0], list(data_map.keys()))` where `e.args[0]` is the
missing key, i.e. `param.name`. -/
def _get_arg_value {α : Type} (param : Param α) (data_map : List (String × α)) :
    Except PopErr α :=
  match dict_get data_map param.name with
  | some v => Except.ok v
  | none =>
    match param.default with
    | none => Except.error (PopErr.parameterError param.name (dict_keys data_map))
    | some d => Except.ok d

/-- The message of the source's `TypeError` for a `VAR_KEYWORD` parameter. -/
def varKeywordMsg (key : String) : String :=
  "Unable to populate VAR_KEYWORD parameter '" ++ key ++ "'"

/-- The message of the source's `TypeError` for a `VAR_POSITIONAL` parameter. -/
def varPositionalMsg (key : String) : String :=
  "Unable to populate VAR_POSITIONAL parameter '" ++ key ++ "'"

/-- The body of the `for key, param in sig.parameters.items()` loop of
`populate_args`, with the accumulators `args` (built by `args.append`) and
`kwargs` (built by `kwargs.__setitem__`) passed explicitly.  In a signature
the key of each item equals the parameter's name. -/
def populate_loop {α : Type} (data_map : List (String × α)) :
    List (Param α) → List α → List (String × α) →
    Except PopErr (List α × List (String × α))
  | [], args, kwargs => Except.ok (args, kwargs)
  | p :: rest, args, kwargs =>
    match p.kind with
    | Kind.KEYWORD_ONLY =>
      match _get_arg_value p data_map with
      | Except.error e => Except.error e
      | Except.ok v => populate_loop data_map rest args (dict_set kwargs p.name v)
    | Kind.POSITIONAL_ONLY =>
      match _get_arg_value p data_map with
      | Except.error e => Except.error e
      | Except.ok v => populate_loop data_map rest (args ++ [v]) kwargs
    | Kind.POSITIONAL_OR_KEYWORD =>
      match _get_arg_value p data_map with
      | Except.error e => Except.error e
      | Except.ok v => populate_loop data_map rest args (dict_set kwargs p.name v)
    | Kind.VAR_KEYWORD => Except.error (PopErr.typeError (varKeywordMsg p.name))
    | Kind.VAR_POSITIONAL => Except.error (PopErr.typeError (varPositionalMsg p.name))

/-- Source `populate_args(func, data_map)`: iterate over the declared
parameters of the signature of `func` (here passed directly as the ordered
parameter list), starting from empty `args` and `kwargs`. -/
def populate_args {α : Type} (params : List (Param α))
    (data_map : List (String × α)) :
    Except PopErr (List α × List (String × α)) :=
  populate_loop data_map params [] []

/-- The exceptions `call_with_args` can raise: an exception propagated
unchanged out of `populate_args`, a `TypeError` raised by the call binding
itself, or an exception of type `ε` raised inside the callable's body. -/
inductive CallErr (ε : Type) : Type where
  | resolution (e : PopErr)
  | binding (msg : String)
  | raised (e : ε)
deriving DecidableEq

/-- A Python callable for this development: its declared signature (ordered
parameter list, as `inspect.signature` reports it) and its body, run on the
name-to-value environment the call binding produced.  The body returns a
value of type `β` or raises an exception of type `ε`. -/
structure Func (α β ε : Type) : Type where
  params : List (Param α)
  body : List (String × α) → Except ε β

/-- Python's binding of a call `f(*posArgs, **kwArgs)` to the declared
parameters of a fixed-arity signature, producing the name-to-value
environment in declaration order, or `none` where Python raises a
`TypeError` (too many positional arguments, multiple values for one
argument, a positional-only name passed as keyword, a missing required
argument, or unexpected keyword arguments left over).  Variable-arity
parameters are rejected by `populate_args` before any call, so the call
model does not bind them. -/
def bindCall {α : Type} :
    List (Param α) → List α → List (String × α) → Option (List (String × α))
  | [], [], kwArgs => if kwArgs.isEmpty then some [] else none
  | [], _ :: _, _ => none
  | p :: rest, a :: moreArgs, kwArgs =>
    match p.kind with
    | Kind.POSITIONAL_ONLY =>
      if (dict_get kwArgs p.name).isSome then none
      else (bindCall rest moreArgs kwArgs).map (fun env => (p.name, a) :: env)
    | Kind.POSITIONAL_OR_KEYWORD =>
      if (dict_get kwArgs p.name).isSome then none
      else (bindCall rest moreArgs kwArgs).map (fun env => (p.name, a) :: env)
    | _ => none
  | p :: rest, [], kwArgs =>
    match p.kind with
    | Kind.POSITIONAL_ONLY =>
      if (dict_get kwArgs p.name).isSome then none
      else
        match p.default with
        | some d => (bindCall rest [] kwArgs).map (fun env => (p.name, d) :: env)
        | none => none
    | Kind.POSITIONAL_OR_KEYWORD =>
      match dict_get kwArgs p.name with
      | some v =>
        (bindCall rest [] (dict_del kwArgs p.name)).map (fun env => (p.name, v) :: env)
      | none =>
        match p.default with
        | some d => (bindCall rest [] kwArgs).map (fun env => (p.name, d) :: env)
        | none => none
    | Kind.KEYWORD_ONLY =>
      match dict_get kwArgs p.name with
      | some v =>
        (bindCall rest [] (dict_del kwArgs p.name)).map (fun env => (p.name, v) :: env)
      | none =>
        match p.default with
        | some d => (bindCall rest [] kwArgs).map (fun env => (p.name, d) :: env)
        | none => none
    | _ => none

/-- Python call `func(*posArgs, **kwArgs)`: bind the arguments to an
environment per the calling convention, then run the body.  An exception
raised by the body propagates as `CallErr.raised`. -/
def callPython {α β ε : Type} (func : Func α β ε) (posArgs : List α)
    (kwArgs : List (String × α)) : Except (CallErr ε) β :=
  match bindCall func.params posArgs kwArgs with
  | none => Except.error (CallErr.binding "invalid arguments for call")
  | some env =>
    match func.body env with
    | Except.ok r => Except.ok r
    | Except.error e => Except.error (CallErr.raised e)

/-- Source `call_with_args(func, arg_data)`: resolve the arguments with
`populate_args`, then call `func(*args, **kwargs)`.  A resolution exception
propagates unchanged. -/
def call_with_args {α β ε : Type} (func : Func α β ε)
    (arg_data : List (String × α)) : Except (CallErr ε) β :=
  match populate_args func.params arg_data with
  | Except.error e => Except.error (CallErr.resolution e)
  | Except.ok (args, kwargs) => callPython func args kwargs

/-- The resolved values that land in the positional list: the positional-only
parameters, in declared order, each with the value `_get_arg_value` yields
for it. -/
def positionalResolved {α : Type} (params : List (Param α))
    (data_map : List (String × α)) : List α :=
  params.filterMap fun p =>
    if p.kind = Kind.POSITIONAL_ONLY then (_get_arg_value p data_map).toOption
    else none

/-- The resolved entries that land in the keyword mapping: the parameters
that are not positional-only, in declared order, each under its own name
with the value `_get_arg_value` yields for it. -/
def keywordResolved {α : Type} (params : List (Param α))
    (data_map : List (String × α)) : List (String × α) :=
  params.filterMap fun p =>
    if p.kind = Kind.POSITIONAL_ONLY then none
    else (_get_arg_value p data_map).toOption.map fun v => (p.name, v)

/-- The named values a direct keyword call would pass: each parameter's name
paired with the data mapping's value for that name. -/
def namedValues {α : Type} (params : List (Param α))
    (data_map : List (String × α)) : List (String × α) :=
  params.filterMap fun p => (dict_get data_map p.name).map fun v => (p.name, v)

/-- Whether a resolution exception is of the TypeError class (the class of
the unsupported-parameter-kind error), as opposed to ParameterError. -/
def PopErr.isTypeError : PopErr → Bool
  | PopErr.typeError _ => true
  | PopErr.parameterError _ _ => false

/-- A resolution exception with the diagnostic valid_args payload of a
ParameterError erased: what remains is the exception class, the missing
parameter name, or the TypeError message. -/
def eraseValidArgs : PopErr → PopErr
  | PopErr.parameterError n _ => PopErr.parameterError n []
  | PopErr.typeError m => PopErr.typeError m

/-- `eraseValidArgs` lifted to call exceptions. -/
def eraseCallValidArgs {ε : Type} : CallErr ε → CallErr ε
  | CallErr.resolution e => CallErr.resolution (eraseValidArgs e)
  | CallErr.binding m => CallErr.binding m
  | CallErr.raised e => CallErr.raised e

/-- The TypeError message `populate_args` raises for a variable-arity
parameter, by its kind. -/
def unsupportedMsg {α : Type} (p : Param α) : String :=
  if p.kind = Kind.VAR_POSITIONAL then varPositionalMsg p.name
  else varKeywordMsg p.name

/-- Python `d[k]` as a state-passing operation on the dict: dict reads leave
the dict as it was. -/
def dict_getitem_st {α : Type} (d : List (String × α)) (k : String) :
    Option α × List (String × α) :=
  (dict_get d k, d)

/-- Python `list(d.keys())` as a state-passing operation on the dict. -/
def dict_keys_st {α : Type} (d : List (String × α)) :
    List String × List (String × α) :=
  (dict_keys d, d)

/-- `_get_arg_value` with the data mapping threaded as state through each
dict operation the source performs on it, returning the mapping as the
source leaves it. -/
def _get_arg_value_st {α : Type} (param : Param α)
    (data_map : List (String × α)) :
    Except PopErr α × List (String × α) :=
  let r := dict_getitem_st data_map param.name
  match r.1 with
  | some v => (Except.ok v, r.2)
  | none =>
    match param.default with
    | none =>
      let kr := dict_keys_st r.2
      (Except.error (PopErr.parameterError param.name kr.1), kr.2)
    | some d => (Except.ok d, r.2)

/-- The loop of `populate_args` with the data mapping threaded as state. -/
def populate_loop_st {α : Type} :
    List (Param α) → List (String × α) → List α → List (String × α) →
    Except PopErr (List α × List (String × α)) × List (String × α)
  | [], data_map, args, kwargs => (Except.ok (args, kwargs), data_map)
  | p :: rest, data_map, args, kwargs =>
    match p.kind with
    | Kind.KEYWORD_ONLY =>
      let r := _get_arg_value_st p data_map
      match r.1 with
      | Except.error e => (Except.error e, r.2)
      | Except.ok v => populate_loop_st rest r.2 args (dict_set kwargs p.name v)
    | Kind.POSITIONAL_ONLY =>
      let r := _get_arg_value_st p data_map
      match r.1 with
      | Except.error e => (Except.error e, r.2)
      | Except.ok v => populate_loop_st rest r.2 (args ++ [v]) kwargs
    | Kind.POSITIONAL_OR_KEYWORD =>
      let r := _get_arg_value_st p data_map
      match r.1 with
      | Except.error e => (Except.error e, r.2)
      | Except.ok v => populate_loop_st rest r.2 args (dict_set kwargs p.name v)
    | Kind.VAR_KEYWORD =>
      (Except.error (PopErr.typeError (varKeywordMsg p.name)), data_map)
    | Kind.VAR_POSITIONAL =>
      (Except.error (PopErr.typeError (varPositionalMsg p.name)), data_map)

/-- `populate_args` with the data mapping threaded as state. -/
def populate_args_st {α : Type} (params : List (Param α))
    (data_map : List (String × α)) :
    Except PopErr (List α × List (String × α)) × List (String × α) :=
  populate_loop_st params data_map [] []

/-- `call_with_args` with the data mapping threaded as state: the callable is
invoked on the resolved arguments, never on the data mapping itself. -/
def call_with_args_st {α β ε : Type} (func : Func α β ε)
    (arg_data : List (String × α)) :
    Except (CallErr ε) β × List (String × α) :=
  let r := populate_args_st func.params arg_data
  match r.1 with
  | Except.error e => (Except.error (CallErr.resolution e), r.2)
  | Except.ok (args, kwargs) => (callPython func args kwargs, r.2)

theorem dict_keys_append {α : Type} (d1 d2 : List (String × α)) :
    dict_keys (d1 ++ d2) = dict_keys d1 ++ dict_keys d2 := by
  simp [dict_keys]

theorem dict_set_eq_append {α : Type} {d : List (String × α)} {k : String}
    (v : α) (h : k ∉ dict_keys d) : dict_set d k v = d ++ [(k, v)] := by
  induction d with
  | nil => rfl
  | cons hd tl ih =>
    obtain ⟨k2, v2⟩ := hd
    simp only [dict_keys, List.map_cons, List.mem_cons] at h
    push_neg at h
    simp only [dict_set, List.cons_append]
    rw [if_neg (fun he => h.1 he.symm)]
    exact congrArg (List.cons (k2, v2)) (ih (by simpa [dict_keys] using h.2))

theorem dict_set_mem_self {α : Type} (d : List (String × α)) (k : String)
    (v : α) : (k, v) ∈ dict_set d k v := by
  induction d with
  | nil => simp [dict_set]
  | cons hd tl ih =>
    obtain ⟨k2, v2⟩ := hd
    simp only [dict_set]
    by_cases hk : k2 = k
    · rw [if_pos hk]
      exact List.mem_cons_self _ _
    · rw [if_neg hk]
      exact List.mem_cons_of_mem _ ih

theorem dict_set_mem_of_ne {α : Type} {d : List (String × α)} {k1 k : String}
    {v1 : α} (v : α) (h : (k1, v1) ∈ d) (hne : k1 ≠ k) :
    (k1, v1) ∈ dict_set d k v := by
  induction d with
  | nil => cases h
  | cons hd tl ih =>
    obtain ⟨k2, v2⟩ := hd
    simp only [dict_set]
    by_cases hk : k2 = k
    · rw [if_pos hk]
      rcases List.mem_cons.mp h with h1 | h1
      · injection h1 with e1 e2
        exact absurd (e1.trans hk) hne
      · exact List.mem_cons_of_mem _ h1
    · rw [if_neg hk]
      rcases List.mem_cons.mp h with h1 | h1
      · exact h1 ▸ List.mem_cons_self _ _
      · exact List.mem_cons_of_mem _ (ih h1)

theorem _get_arg_value_of_missing {α : Type} {param : Param α}
    {data_map : List (String × α)} (hd : param.default = none)
    (hg : dict_get data_map param.name = none) :
    _get_arg_value param data_map =
      Except.error (PopErr.parameterError param.name (dict_keys data_map)) := by
  simp [_get_arg_value, hg, hd]

theorem _get_arg_value_of_default {α : Type} {param : Param α} {d : α}
    {data_map : List (String × α)} (hd : param.default = some d)
    (hg : dict_get data_map param.name = none) :
    _get_arg_value param data_map = Except.ok d := by
  simp [_get_arg_value, hg, hd]

theorem populate_loop_error_of_mem {α : Type} {data_map : List (String × α)}
    {p : Param α} :
    ∀ {ps : List (Param α)}, p ∈ ps →
      (p.kind = Kind.VAR_KEYWORD ∨ p.kind = Kind.VAR_POSITIONAL ∨
        (p.default = none ∧ dict_get data_map p.name = none)) →
      ∀ args kwargs, ∃ e, populate_loop data_map ps args kwargs = Except.error e
  | [], hmem, _, _, _ => absurd hmem (List.not_mem_nil p)
  | q :: rest, hmem, hfail, args, kwargs => by
    rcases List.mem_cons.mp hmem with rfl | hmem'
    · rcases hfail with hk | hk | ⟨hd, hg⟩
      · exact ⟨PopErr.typeError (varKeywordMsg p.name), by simp [populate_loop, hk]⟩
      · exact ⟨PopErr.typeError (varPositionalMsg p.name), by simp [populate_loop, hk]⟩
      · have hget := _get_arg_value_of_missing hd hg
        cases hk : p.kind with
        | POSITIONAL_ONLY =>
          exact ⟨PopErr.parameterError p.name (dict_keys data_map),
            by simp [populate_loop, hk, hget]⟩
        | POSITIONAL_OR_KEYWORD =>
          exact ⟨PopErr.parameterError p.name (dict_keys data_map),
            by simp [populate_loop, hk, hget]⟩
        | KEYWORD_ONLY =>
          exact ⟨PopErr.parameterError p.name (dict_keys data_map),
            by simp [populate_loop, hk, hget]⟩
        | VAR_KEYWORD =>
          exact ⟨PopErr.typeError (varKeywordMsg p.name), by simp [populate_loop, hk]⟩
        | VAR_POSITIONAL =>
          exact ⟨PopErr.typeError (varPositionalMsg p.name), by simp [populate_loop, hk]⟩
    · cases hqk : q.kind with
      | VAR_KEYWORD =>
        exact ⟨PopErr.typeError (varKeywordMsg q.name), by simp [populate_loop, hqk]⟩
      | VAR_POSITIONAL =>
        exact ⟨PopErr.typeError (varPositionalMsg q.name), by simp [populate_loop, hqk]⟩
      | KEYWORD_ONLY =>
        cases hqv : _get_arg_value q data_map with
        | error e => exact ⟨e, by simp [populate_loop, hqk, hqv]⟩
        | ok v =>
          obtain ⟨e, he⟩ :=
            populate_loop_error_of_mem hmem' hfail args (dict_set kwargs q.name v)
          exact ⟨e, by simp [populate_loop, hqk, hqv, he]⟩
      | POSITIONAL_ONLY =>
        cases hqv : _get_arg_value q data_map with
        | error e => exact ⟨e, by simp [populate_loop, hqk, hqv]⟩
        | ok v =>
          obtain ⟨e, he⟩ :=
            populate_loop_error_of_mem hmem' hfail (args ++ [v]) kwargs
          exact ⟨e, by simp [populate_loop, hqk, hqv, he]⟩
      | POSITIONAL_OR_KEYWORD =>
        cases hqv : _get_arg_value q data_map with
        | error e => exact ⟨e, by simp [populate_loop, hqk, hqv]⟩
        | ok v =>
          obtain ⟨e, he⟩ :=
            populate_loop_error_of_mem hmem' hfail args (dict_set kwargs q.name v)
          exact ⟨e, by simp [populate_loop, hqk, hqv, he]⟩

theorem positionalResolved_cons_pos {α : Type} {p : Param α} {v : α}
    (data_map : List (String × α)) (hk : p.kind = Kind.POSITIONAL_ONLY)
    (hv : _get_arg_value p data_map = Except.ok v) (rest : List (Param α)) :
    positionalResolved (p :: rest) data_map = v :: positionalResolved rest data_map := by
  simp [positionalResolved, List.filterMap_cons, hk, hv, Except.toOption]

theorem positionalResolved_cons_nonpos {α : Type} {p : Param α}
    (data_map : List (String × α)) (hk : p.kind ≠ Kind.POSITIONAL_ONLY)
    (rest : List (Param α)) :
    positionalResolved (p :: rest) data_map = positionalResolved rest data_map := by
  simp [positionalResolved, List.filterMap_cons, hk]

theorem keywordResolved_cons_pos {α : Type} {p : Param α}
    (data_map : List (String × α)) (hk : p.kind = Kind.POSITIONAL_ONLY)
    (rest : List (Param α)) :
    keywordResolved (p :: rest) data_map = keywordResolved rest data_map := by
  simp [keywordResolved, List.filterMap_cons, hk]

theorem keywordResolved_cons_nonpos {α : Type} {p : Param α} {v : α}
    (data_map : List (String × α)) (hk : p.kind ≠ Kind.POSITIONAL_ONLY)
    (hv : _get_arg_value p data_map = Except.ok v) (rest : List (Param α)) :
    keywordResolved (p :: rest) data_map =
      (p.name, v) :: keywordResolved rest data_map := by
  simp [keywordResolved, List.filterMap_cons, hk, hv, Except.toOption]

theorem populate_loop_ok_spec {α : Type} (data_map : List (String × α)) :
    ∀ (ps : List (Param α)) (args : List α) (kwargs : List (String × α))
      (a : List α) (kw : List (String × α)),
      (ps.map Param.name).Nodup →
      (∀ p ∈ ps, p.name ∉ dict_keys kwargs) →
      populate_loop data_map ps args kwargs = Except.ok (a, kw) →
      a = args ++ positionalResolved ps data_map ∧
      kw = kwargs ++ keywordResolved ps data_map := by
  intro ps
  induction ps with
  | nil =>
    intro args kwargs a kw _ _ hok
    simp only [populate_loop, Except.ok.injEq, Prod.mk.injEq] at hok
    simp [positionalResolved, keywordResolved, ← hok.1, ← hok.2]
  | cons p rest ih =>
    intro args kwargs a kw hnd hdisj hok
    have hnd2 : (∀ x ∈ rest, ¬x.name = p.name) ∧ (rest.map Param.name).Nodup := by
      simpa using hnd
    have hpn : p.name ∉ rest.map Param.name := by
      intro hc
      obtain ⟨q, hq, he⟩ := List.mem_map.mp hc
      exact hnd2.1 q hq he
    have hnd' : (rest.map Param.name).Nodup := hnd2.2
    have hdisjRest : ∀ q ∈ rest, q.name ∉ dict_keys kwargs := fun q hq =>
      hdisj q (List.mem_cons_of_mem _ hq)
    cases hk : p.kind with
    | KEYWORD_ONLY =>
      simp only [populate_loop, hk] at hok
      cases hv : _get_arg_value p data_map with
      | error e => rw [hv] at hok; simp at hok
      | ok v =>
        rw [hv] at hok
        simp only [] at hok
        rw [dict_set_eq_append v (hdisj p (List.mem_cons_self p rest))] at hok
        have hdisj' : ∀ q ∈ rest, q.name ∉ dict_keys (kwargs ++ [(p.name, v)]) := by
          intro q hq hc
          rw [dict_keys_append] at hc
          rcases List.mem_append.mp hc with hc1 | hc2
          · exact hdisjRest q hq hc1
          · have he : q.name = p.name := by simpa [dict_keys] using hc2
            exact hpn (he ▸ List.mem_map_of_mem Param.name hq)
        obtain ⟨ha, hkw⟩ := ih args (kwargs ++ [(p.name, v)]) a kw hnd' hdisj' hok
        refine ⟨?_, ?_⟩
        · rw [ha, positionalResolved_cons_nonpos data_map (by simp [hk]) rest]
        · rw [hkw, keywordResolved_cons_nonpos data_map (by simp [hk]) hv rest,
            List.append_assoc]
          rfl
    | POSITIONAL_OR_KEYWORD =>
      simp only [populate_loop, hk] at hok
      cases hv : _get_arg_value p data_map with
      | error e => rw [hv] at hok; simp at hok
      | ok v =>
        rw [hv] at hok
        simp only [] at hok
        rw [dict_set_eq_append v (hdisj p (List.mem_cons_self p rest))] at hok
        have hdisj' : ∀ q ∈ rest, q.name ∉ dict_keys (kwargs ++ [(p.name, v)]) := by
          intro q hq hc
          rw [dict_keys_append] at hc
          rcases List.mem_append.mp hc with hc1 | hc2
          · exact hdisjRest q hq hc1
          · have he : q.name = p.name := by simpa [dict_keys] using hc2
            exact hpn (he ▸ List.mem_map_of_mem Param.name hq)
        obtain ⟨ha, hkw⟩ := ih args (kwargs ++ [(p.name, v)]) a kw hnd' hdisj' hok
        refine ⟨?_, ?_⟩
        · rw [ha, positionalResolved_cons_nonpos data_map (by simp [hk]) rest]
        · rw [hkw, keywordResolved_cons_nonpos data_map (by simp [hk]) hv rest,
            List.append_assoc]
          rfl
    | POSITIONAL_ONLY =>
      simp only [populate_loop, hk] at hok
      cases hv : _get_arg_value p data_map with
      | error e => rw [hv] at hok; simp at hok
      | ok v =>
        rw [hv] at hok
        simp only [] at hok
        obtain ⟨ha, hkw⟩ := ih (args ++ [v]) kwargs a kw hnd' hdisjRest hok
        refine ⟨?_, ?_⟩
        · rw [ha, positionalResolved_cons_pos data_map hk hv rest, List.append_assoc]
          rfl
        · rw [hkw, keywordResolved_cons_pos data_map hk rest]
    | VAR_KEYWORD => simp [populate_loop, hk] at hok
    | VAR_POSITIONAL => simp [populate_loop, hk] at hok

theorem _get_arg_value_st_spec {α : Type} (param : Param α)
    (data_map : List (String × α)) :
    _get_arg_value_st param data_map = (_get_arg_value param data_map, data_map) := by
  cases hg : dict_get data_map param.name with
  | some v => simp [_get_arg_value_st, _get_arg_value, dict_getitem_st, hg]
  | none =>
    cases hd : param.default with
    | none =>
      simp [_get_arg_value_st, _get_arg_value, dict_getitem_st, dict_keys_st, hg, hd]
    | some d =>
      simp [_get_arg_value_st, _get_arg_value, dict_getitem_st, hg, hd]

theorem populate_loop_st_spec {α : Type} :
    ∀ (ps : List (Param α)) (data_map : List (String × α)) (args : List α)
      (kwargs : List (String × α)),
      populate_loop_st ps data_map args kwargs =
        (populate_loop data_map ps args kwargs, data_map) := by
  intro ps
  induction ps with
  | nil => intro data_map args kwargs; rfl
  | cons p rest ih =>
    intro data_map args kwargs
    cases hk : p.kind with
    | KEYWORD_ONLY =>
      simp only [populate_loop_st, populate_loop, hk, _get_arg_value_st_spec]
      cases hv : _get_arg_value p data_map with
      | error e => rfl
      | ok v => exact ih data_map args (dict_set kwargs p.name v)
    | POSITIONAL_ONLY =>
      simp only [populate_loop_st, populate_loop, hk, _get_arg_value_st_spec]
      cases hv : _get_arg_value p data_map with
      | error e => rfl
      | ok v => exact ih data_map (args ++ [v]) kwargs
    | POSITIONAL_OR_KEYWORD =>
      simp only [populate_loop_st, populate_loop, hk, _get_arg_value_st_spec]
      cases hv : _get_arg_value p data_map with
      | error e => rfl
      | ok v => exact ih data_map args (dict_set kwargs p.name v)
    | VAR_KEYWORD => simp [populate_loop_st, populate_loop, hk]
    | VAR_POSITIONAL => simp [populate_loop_st, populate_loop, hk]

theorem populate_args_st_spec {α : Type} (params : List (Param α))
    (data_map : List (String × α)) :
    populate_args_st params data_map = (populate_args params data_map, data_map) := by
  simp [populate_args_st, populate_args, populate_loop_st_spec]

theorem call_with_args_st_spec {α β ε : Type} (func : Func α β ε)
    (arg_data : List (String × α)) :
    call_with_args_st func arg_data = (call_with_args func arg_data, arg_data) := by
  simp only [call_with_args_st, call_with_args, populate_args_st_spec]
  cases hr : populate_args func.params arg_data with
  | error e => rfl
  | ok r => obtain ⟨args, kwargs⟩ := r; rfl

theorem _get_arg_value_congr {α : Type} (param : Param α)
    {dm1 dm2 : List (String × α)}
    (hg : dict_get dm1 param.name = dict_get dm2 param.name) :
    (_get_arg_value param dm1).mapError eraseValidArgs =
      (_get_arg_value param dm2).mapError eraseValidArgs := by
  cases h1 : dict_get dm1 param.name with
  | some v => simp [_get_arg_value, h1, ← hg]
  | none =>
    cases hd : param.default with
    | none =>
      simp [_get_arg_value, h1, ← hg, hd, Except.mapError, eraseValidArgs]
    | some d => simp [_get_arg_value, h1, ← hg, hd]

theorem populate_loop_congr {α : Type} {dm1 dm2 : List (String × α)} :
    ∀ (ps : List (Param α)),
      (∀ p ∈ ps, dict_get dm1 p.name = dict_get dm2 p.name) →
      ∀ (args : List α) (kwargs : List (String × α)),
      (populate_loop dm1 ps args kwargs).mapError eraseValidArgs =
        (populate_loop dm2 ps args kwargs).mapError eraseValidArgs := by
  intro ps
  induction ps with
  | nil => intro _ args kwargs; rfl
  | cons p rest ih =>
    intro hg args kwargs
    have hgp := hg p (List.mem_cons_self p rest)
    have hgr : ∀ q ∈ rest, dict_get dm1 q.name = dict_get dm2 q.name := fun q hq =>
      hg q (List.mem_cons_of_mem _ hq)
    have hcongr := _get_arg_value_congr p hgp
    cases hk : p.kind with
    | KEYWORD_ONLY =>
      simp only [populate_loop, hk]
      cases h1 : _get_arg_value p dm1 with
      | error e1 =>
        cases h2 : _get_arg_value p dm2 with
        | error e2 =>
          rw [h1, h2] at hcongr
          simp only [Except.mapError] at hcongr ⊢
          simpa using hcongr
        | ok v2 =>
          rw [h1, h2] at hcongr
          simp [Except.mapError] at hcongr
      | ok v1 =>
        cases h2 : _get_arg_value p dm2 with
        | error e2 =>
          rw [h1, h2] at hcongr
          simp [Except.mapError] at hcongr
        | ok v2 =>
          rw [h1, h2] at hcongr
          have hv : v1 = v2 := by simpa [Except.mapError] using hcongr
          subst hv
          exact ih hgr args (dict_set kwargs p.name v1)
    | POSITIONAL_ONLY =>
      simp only [populate_loop, hk]
      cases h1 : _get_arg_value p dm1 with
      | error e1 =>
        cases h2 : _get_arg_value p dm2 with
        | error e2 =>
          rw [h1, h2] at hcongr
          simp only [Except.mapError] at hcongr ⊢
          simpa using hcongr
        | ok v2 =>
          rw [h1, h2] at hcongr
          simp [Except.mapError] at hcongr
      | ok v1 =>
        cases h2 : _get_arg_value p dm2 with
        | error e2 =>
          rw [h1, h2] at hcongr
          simp [Except.mapError] at hcongr
        | ok v2 =>
          rw [h1, h2] at hcongr
          have hv : v1 = v2 := by simpa [Except.mapError] using hcongr
          subst hv
          exact ih hgr (args ++ [v1]) kwargs
    | POSITIONAL_OR_KEYWORD =>
      simp only [populate_loop, hk]
      cases h1 : _get_arg_value p dm1 with
      | error e1 =>
        cases h2 : _get_arg_value p dm2 with
        | error e2 =>
          rw [h1, h2] at hcongr
          simp only [Except.mapError] at hcongr ⊢
          simpa using hcongr
        | ok v2 =>
          rw [h1, h2] at hcongr
          simp [Except.mapError] at hcongr
      | ok v1 =>
        cases h2 : _get_arg_value p dm2 with
        | error e2 =>
          rw [h1, h2] at hcongr
          simp [Except.mapError] at hcongr
        | ok v2 =>
          rw [h1, h2] at hcongr
          have hv : v1 = v2 := by simpa [Except.mapError] using hcongr
          subst hv
          exact ih hgr args (dict_set kwargs p.name v1)
    | VAR_KEYWORD => simp [populate_loop, hk]
    | VAR_POSITIONAL => simp [populate_loop, hk]

theorem populate_args_congr {α : Type} {dm1 dm2 : List (String × α)}
    (params : List (Param α))
    (hg : ∀ p ∈ params, dict_get dm1 p.name = dict_get dm2 p.name) :
    (populate_args params dm1).mapError eraseValidArgs =
      (populate_args params dm2).mapError eraseValidArgs :=
  populate_loop_congr params hg [] []

theorem call_with_args_congr {α β ε : Type} {dm1 dm2 : List (String × α)}
    (func : Func α β ε)
    (hg : ∀ p ∈ func.params, dict_get dm1 p.name = dict_get dm2 p.name) :
    (call_with_args func dm1).mapError eraseCallValidArgs =
      (call_with_args func dm2).mapError eraseCallValidArgs := by
  have hp := populate_args_congr func.params hg
  simp only [call_with_args]
  cases h1 : populate_args func.params dm1 with
  | error e1 =>
    cases h2 : populate_args func.params dm2 with
    | error e2 =>
      rw [h1, h2] at hp
      simp only [Except.mapError] at hp ⊢
      simp only [eraseCallValidArgs]
      simpa using hp
    | ok r2 =>
      rw [h1, h2] at hp
      simp [Except.mapError] at hp
  | ok r1 =>
    cases h2 : populate_args func.params dm2 with
    | error e2 =>
      rw [h1, h2] at hp
      simp [Except.mapError] at hp
    | ok r2 =>
      rw [h1, h2] at hp
      have hr : r1 = r2 := by simpa [Except.mapError] using hp
      subst hr
      obtain ⟨args, kwargs⟩ := r1
      rfl

theorem varKeywordMsg_inj {n m : String} (h : varKeywordMsg n = varKeywordMsg m) :
    n = m := by
  have hd : ("Unable to populate VAR_KEYWORD parameter '".data ++ n.data) ++ "'".data =
      ("Unable to populate VAR_KEYWORD parameter '".data ++ m.data) ++ "'".data :=
    congrArg String.data h
  exact String.ext (List.append_cancel_left (List.append_cancel_right hd))

theorem varPositionalMsg_inj {n m : String}
    (h : varPositionalMsg n = varPositionalMsg m) : n = m := by
  have hd : ("Unable to populate VAR_POSITIONAL parameter '".data ++ n.data) ++ "'".data =
      ("Unable to populate VAR_POSITIONAL parameter '".data ++ m.data) ++ "'".data :=
    congrArg String.data h
  exact String.ext (List.append_cancel_left (List.append_cancel_right hd))

theorem varKeywordMsg_ne_varPositionalMsg (n m : String) :
    varKeywordMsg n ≠ varPositionalMsg m := by
  intro h
  have hd : ("Unable to populate VAR_KEYWORD parameter '".data ++ n.data) ++ "'".data =
      ("Unable to populate VAR_POSITIONAL parameter '".data ++ m.data) ++ "'".data :=
    congrArg String.data h
  have h23 := congrArg (fun l => l[23]?) hd
  simp only [] at h23
  have hl1 : (23 : Nat) < "Unable to populate VAR_KEYWORD parameter '".data.length := by
    decide
  have hl2 : (23 : Nat) < "Unable to populate VAR_POSITIONAL parameter '".data.length := by
    decide
  have hn1 : (23 : Nat) <
      ("Unable to populate VAR_KEYWORD parameter '".data ++ n.data).length := by
    rw [List.length_append]
    omega
  have hn2 : (23 : Nat) <
      ("Unable to populate VAR_POSITIONAL parameter '".data ++ m.data).length := by
    rw [List.length_append]
    omega
  rw [List.getElem?_append_left hn1, List.getElem?_append_left hl1,
    List.getElem?_append_left hn2, List.getElem?_append_left hl2] at h23
  have : ('K' : Char) = 'P' := by
    have e1 : ("Unable to populate VAR_KEYWORD parameter '".data)[23]? = some 'K' := by
      decide
    have e2 : ("Unable to populate VAR_POSITIONAL parameter '".data)[23]? = some 'P' := by
      decide
    rw [e1, e2] at h23
    exact Option.some.inj h23
  exact absurd this (by decide)

theorem _get_arg_value_error_shape {α : Type} {p : Param α}
    {data_map : List (String × α)} {e : PopErr}
    (h : _get_arg_value p data_map = Except.error e) :
    ∃ ks, e = PopErr.parameterError p.name ks := by
  cases hg : dict_get data_map p.name with
  | some v => simp [_get_arg_value, hg] at h
  | none =>
    cases hd : p.default with
    | none =>
      refine ⟨dict_keys data_map, ?_⟩
      have := _get_arg_value_of_missing hd hg
      rw [this] at h
      exact (Except.error.inj h).symm
    | some d => simp [_get_arg_value, hg, hd] at h

theorem populate_loop_typeError_shape {α : Type} {data_map : List (String × α)}
    {msg : String} :
    ∀ {ps : List (Param α)} {args : List α} {kwargs : List (String × α)},
      populate_loop data_map ps args kwargs =
        Except.error (PopErr.typeError msg) →
      ∃ p ∈ ps, (p.kind = Kind.VAR_KEYWORD ∧ msg = varKeywordMsg p.name) ∨
        (p.kind = Kind.VAR_POSITIONAL ∧ msg = varPositionalMsg p.name) := by
  intro ps
  induction ps with
  | nil => intro args kwargs h; simp [populate_loop] at h
  | cons p rest ih =>
    intro args kwargs h
    cases hk : p.kind with
    | KEYWORD_ONLY =>
      simp only [populate_loop, hk] at h
      cases hv : _get_arg_value p data_map with
      | error e =>
        rw [hv] at h
        simp only [Except.error.injEq] at h
        obtain ⟨ks, hks⟩ := _get_arg_value_error_shape hv
        rw [hks] at h
        cases h
      | ok v =>
        rw [hv] at h
        simp only [] at h
        obtain ⟨q, hq, hcase⟩ := ih h
        exact ⟨q, List.mem_cons_of_mem _ hq, hcase⟩
    | POSITIONAL_ONLY =>
      simp only [populate_loop, hk] at h
      cases hv : _get_arg_value p data_map with
      | error e =>
        rw [hv] at h
        simp only [Except.error.injEq] at h
        obtain ⟨ks, hks⟩ := _get_arg_value_error_shape hv
        rw [hks] at h
        cases h
      | ok v =>
        rw [hv] at h
        simp only [] at h
        obtain ⟨q, hq, hcase⟩ := ih h
        exact ⟨q, List.mem_cons_of_mem _ hq, hcase⟩
    | POSITIONAL_OR_KEYWORD =>
      simp only [populate_loop, hk] at h
      cases hv : _get_arg_value p data_map with
      | error e =>
        rw [hv] at h
        simp only [Except.error.injEq] at h
        obtain ⟨ks, hks⟩ := _get_arg_value_error_shape hv
        rw [hks] at h
        cases h
      | ok v =>
        rw [hv] at h
        simp only [] at h
        obtain ⟨q, hq, hcase⟩ := ih h
        exact ⟨q, List.mem_cons_of_mem _ hq, hcase⟩
    | VAR_KEYWORD =>
      simp only [populate_loop, hk, Except.error.injEq, PopErr.typeError.injEq] at h
      exact ⟨p, List.mem_cons_self p rest, Or.inl ⟨hk, h.symm⟩⟩
    | VAR_POSITIONAL =>
      simp only [populate_loop, hk, Except.error.injEq, PopErr.typeError.injEq] at h
      exact ⟨p, List.mem_cons_self p rest, Or.inr ⟨hk, h.symm⟩⟩

theorem populate_loop_prefix_unsupported {α : Type} (data_map : List (String × α))
    (p : Param α) (post : List (Param α))
    (hk : p.kind = Kind.VAR_POSITIONAL ∨ p.kind = Kind.VAR_KEYWORD) :
    ∀ (pre : List (Param α)),
      (∀ q ∈ pre,
        (q.kind = Kind.POSITIONAL_ONLY ∨ q.kind = Kind.POSITIONAL_OR_KEYWORD ∨
          q.kind = Kind.KEYWORD_ONLY) ∧
        ∃ v, _get_arg_value q data_map = Except.ok v) →
      ∀ (args : List α) (kwargs : List (String × α)),
        populate_loop data_map (pre ++ p :: post) args kwargs =
          Except.error (PopErr.typeError (unsupportedMsg p)) := by
  intro pre
  induction pre with
  | nil =>
    intro _ args kwargs
    rcases hk with hk | hk
    · simp [populate_loop, hk, unsupportedMsg]
    · simp [populate_loop, hk, unsupportedMsg]
  | cons q pre' ih =>
    intro hpre args kwargs
    obtain ⟨hqk, v, hv⟩ := hpre q (List.mem_cons_self q pre')
    have hpre' : ∀ r ∈ pre',
        (r.kind = Kind.POSITIONAL_ONLY ∨ r.kind = Kind.POSITIONAL_OR_KEYWORD ∨
          r.kind = Kind.KEYWORD_ONLY) ∧
        ∃ v, _get_arg_value r data_map = Except.ok v := fun r hr =>
      hpre r (List.mem_cons_of_mem _ hr)
    rcases hqk with h | h | h
    · simp only [List.cons_append, populate_loop, h, hv]
      exact ih hpre' (args ++ [v]) kwargs
    · simp only [List.cons_append, populate_loop, h, hv]
      exact ih hpre' args (dict_set kwargs q.name v)
    · simp only [List.cons_append, populate_loop, h, hv]
      exact ih hpre' args (dict_set kwargs q.name v)

theorem _get_arg_value_of_present {α : Type} {param : Param α} {v : α}
    {data_map : List (String × α)} (hg : dict_get data_map param.name = some v) :
    _get_arg_value param data_map = Except.ok v := by
  simp [_get_arg_value, hg]

theorem _get_arg_value_error_cases {α : Type} {p : Param α}
    {data_map : List (String × α)} {e : PopErr}
    (h : _get_arg_value p data_map = Except.error e) :
    p.default = none ∧ dict_get data_map p.name = none := by
  cases hg : dict_get data_map p.name with
  | some v => simp [_get_arg_value, hg] at h
  | none =>
    cases hd : p.default with
    | none => exact ⟨rfl, rfl⟩
    | some d => simp [_get_arg_value, hg, hd] at h

theorem populate_loop_args_spec {α : Type} (data_map : List (String × α)) :
    ∀ (ps : List (Param α)) (args : List α) (kwargs : List (String × α))
      (a : List α) (kw : List (String × α)),
      populate_loop data_map ps args kwargs = Except.ok (a, kw) →
      a = args ++ positionalResolved ps data_map := by
  intro ps
  induction ps with
  | nil =>
    intro args kwargs a kw hok
    simp only [populate_loop, Except.ok.injEq, Prod.mk.injEq] at hok
    simp [positionalResolved, ← hok.1]
  | cons p rest ih =>
    intro args kwargs a kw hok
    cases hk : p.kind with
    | KEYWORD_ONLY =>
      simp only [populate_loop, hk] at hok
      cases hv : _get_arg_value p data_map with
      | error e => rw [hv] at hok; simp at hok
      | ok v =>
        rw [hv] at hok
        simp only [] at hok
        rw [ih args (dict_set kwargs p.name v) a kw hok,
          positionalResolved_cons_nonpos data_map (by simp [hk]) rest]
    | POSITIONAL_OR_KEYWORD =>
      simp only [populate_loop, hk] at hok
      cases hv : _get_arg_value p data_map with
      | error e => rw [hv] at hok; simp at hok
      | ok v =>
        rw [hv] at hok
        simp only [] at hok
        rw [ih args (dict_set kwargs p.name v) a kw hok,
          positionalResolved_cons_nonpos data_map (by simp [hk]) rest]
    | POSITIONAL_ONLY =>
      simp only [populate_loop, hk] at hok
      cases hv : _get_arg_value p data_map with
      | error e => rw [hv] at hok; simp at hok
      | ok v =>
        rw [hv] at hok
        simp only [] at hok
        rw [ih (args ++ [v]) kwargs a kw hok,
          positionalResolved_cons_pos data_map hk hv rest, List.append_assoc]
        rfl
    | VAR_KEYWORD => simp [populate_loop, hk] at hok
    | VAR_POSITIONAL => simp [populate_loop, hk] at hok

theorem populate_loop_ok_of_resolvable {α : Type} (data_map : List (String × α)) :
    ∀ (ps : List (Param α)),
      (∀ p ∈ ps,
        (p.kind = Kind.POSITIONAL_ONLY ∨ p.kind = Kind.POSITIONAL_OR_KEYWORD ∨
          p.kind = Kind.KEYWORD_ONLY) ∧
        ∃ v, _get_arg_value p data_map = Except.ok v) →
      ∀ (args : List α) (kwargs : List (String × α)),
        ∃ a kw, populate_loop data_map ps args kwargs = Except.ok (a, kw) := by
  intro ps
  induction ps with
  | nil => intro _ args kwargs; exact ⟨args, kwargs, rfl⟩
  | cons p rest ih =>
    intro hres args kwargs
    obtain ⟨hpk, v, hv⟩ := hres p (List.mem_cons_self p rest)
    have hres' : ∀ q ∈ rest,
        (q.kind = Kind.POSITIONAL_ONLY ∨ q.kind = Kind.POSITIONAL_OR_KEYWORD ∨
          q.kind = Kind.KEYWORD_ONLY) ∧
        ∃ v, _get_arg_value q data_map = Except.ok v := fun q hq =>
      hres q (List.mem_cons_of_mem _ hq)
    rcases hpk with h | h | h
    · obtain ⟨a, kw, hok⟩ := ih hres' (args ++ [v]) kwargs
      exact ⟨a, kw, by simp only [populate_loop, h, hv]; exact hok⟩
    · obtain ⟨a, kw, hok⟩ := ih hres' args (dict_set kwargs p.name v)
      exact ⟨a, kw, by simp only [populate_loop, h, hv]; exact hok⟩
    · obtain ⟨a, kw, hok⟩ := ih hres' args (dict_set kwargs p.name v)
      exact ⟨a, kw, by simp only [populate_loop, h, hv]; exact hok⟩

theorem positionalResolved_eq_nil {α : Type} {ps : List (Param α)}
    (data_map : List (String × α))
    (h : ∀ p ∈ ps, p.kind ≠ Kind.POSITIONAL_ONLY) :
    positionalResolved ps data_map = [] := by
  induction ps with
  | nil => rfl
  | cons p rest ih =>
    rw [positionalResolved_cons_nonpos data_map (h p (List.mem_cons_self p rest)) rest]
    exact ih fun q hq => h q (List.mem_cons_of_mem _ hq)

theorem keywordResolved_eq_namedValues {α : Type} {ps : List (Param α)}
    (data_map : List (String × α))
    (hkinds : ∀ p ∈ ps, p.kind ≠ Kind.POSITIONAL_ONLY)
    (hpresent : ∀ p ∈ ps, (dict_get data_map p.name).isSome = true) :
    keywordResolved ps data_map = namedValues ps data_map := by
  induction ps with
  | nil => rfl
  | cons p rest ih =>
    obtain ⟨v, hv⟩ := Option.isSome_iff_exists.mp
      (hpresent p (List.mem_cons_self p rest))
    rw [keywordResolved_cons_nonpos data_map (hkinds p (List.mem_cons_self p rest))
      (_get_arg_value_of_present hv) rest]
    have : namedValues (p :: rest) data_map =
        (p.name, v) :: namedValues rest data_map := by
      simp [namedValues, List.filterMap_cons, hv]
    rw [this, ih (fun q hq => hkinds q (List.mem_cons_of_mem _ hq))
      (fun q hq => hpresent q (List.mem_cons_of_mem _ hq))]

theorem mapError_ok_iff {ε ε2 β : Type} (f : ε → ε2) {x y : Except ε β}
    (h : x.mapError f = y.mapError f) (r : β) :
    x = Except.ok r ↔ y = Except.ok r := by
  cases x <;> cases y <;> simp_all [Except.mapError]

/-- C1: for a callable whose declared parameters are all of kind
positional-or-keyword or keyword-only (with the distinct parameter names
Python guarantees within one signature), and a data mapping containing a
value for each parameter name, `call_with_args` returns exactly what calling
the callable directly with those named values returns (a plain Python call
with no positional arguments and each parameter name paired with the
mapping value for it). -/
theorem C1_invoke_eq_direct_call {α β ε : Type} (func : Func α β ε)
    (data_map : List (String × α))
    (hnodup : (func.params.map Param.name).Nodup)
    (hkinds : ∀ p ∈ func.params,
      p.kind = Kind.POSITIONAL_OR_KEYWORD ∨ p.kind = Kind.KEYWORD_ONLY)
    (hpresent : ∀ p ∈ func.params, (dict_get data_map p.name).isSome = true) :
    call_with_args func data_map =
      callPython func [] (namedValues func.params data_map) := by
  have hres : ∀ p ∈ func.params,
      (p.kind = Kind.POSITIONAL_ONLY ∨ p.kind = Kind.POSITIONAL_OR_KEYWORD ∨
        p.kind = Kind.KEYWORD_ONLY) ∧
      ∃ v, _get_arg_value p data_map = Except.ok v := by
    intro p hp
    obtain ⟨v, hv⟩ := Option.isSome_iff_exists.mp (hpresent p hp)
    refine ⟨?_, v, _get_arg_value_of_present hv⟩
    rcases hkinds p hp with h | h
    · exact Or.inr (Or.inl h)
    · exact Or.inr (Or.inr h)
  have hnopos : ∀ p ∈ func.params, p.kind ≠ Kind.POSITIONAL_ONLY := by
    intro p hp hc
    rcases hkinds p hp with h | h <;> rw [hc] at h <;> exact absurd h (by decide)
  obtain ⟨a, kw, hok⟩ := populate_loop_ok_of_resolvable data_map func.params hres [] []
  obtain ⟨ha, hkw⟩ := populate_loop_ok_spec data_map func.params [] [] a kw hnodup
    (by simp [dict_keys]) hok
  have ha2 : a = [] := by
    rw [ha, positionalResolved_eq_nil data_map hnopos]
    rfl
  have hkw2 : kw = namedValues func.params data_map := by
    rw [hkw]
    simp only [List.nil_append]
    exact keywordResolved_eq_namedValues data_map hnopos hpresent
  have hpop : populate_args func.params data_map =
      Except.ok ([], namedValues func.params data_map) := by
    rw [← ha2, ← hkw2]
    exact hok
  simp only [call_with_args, hpop]

/-- C1 witness: the square scenario, `square(n)` called through the data
mapping with the extra keys s and tm equals the direct keyword call. -/
theorem C1_witness :
    call_with_args
        (⟨[⟨"n", Kind.POSITIONAL_OR_KEYWORD, none⟩],
          fun env => Except.ok ((dict_get env "n").getD 0 ^ 2)⟩ : Func Nat Nat Unit)
        [("n", 5), ("s", 4), ("tm", 3)] =
      callPython
        (⟨[⟨"n", Kind.POSITIONAL_OR_KEYWORD, none⟩],
          fun env => Except.ok ((dict_get env "n").getD 0 ^ 2)⟩ : Func Nat Nat Unit)
        [] (namedValues [⟨"n", Kind.POSITIONAL_OR_KEYWORD, none⟩]
             [("n", 5), ("s", 4), ("tm", 3)]) :=
  C1_invoke_eq_direct_call _ _ (by decide) (by decide) (by decide)

/-- C2: for a declared parameter with no default whose name the data mapping
lacks, the per-parameter resolution raises ParameterError carrying exactly
that parameter name and the full key list of the data mapping, and the
whole resolution `populate_args` raises an error. -/
theorem C2_missing_parameter {α : Type} (params : List (Param α)) (p : Param α)
    (data_map : List (String × α)) (hmem : p ∈ params)
    (hdef : p.default = none) (hmiss : dict_get data_map p.name = none) :
    _get_arg_value p data_map =
      Except.error (PopErr.parameterError p.name (dict_keys data_map)) ∧
    ∃ e, populate_args params data_map = Except.error e :=
  ⟨_get_arg_value_of_missing hdef hmiss,
    populate_loop_error_of_mem hmem (Or.inr (Or.inr ⟨hdef, hmiss⟩)) [] []⟩

/-- C2 witness: the keyword-only scenario, `f(*, param)` with the mapping
holding only the key other: ParameterError with name param and keys
[other]. -/
theorem C2_witness :
    _get_arg_value (⟨"param", Kind.KEYWORD_ONLY, none⟩ : Param Nat)
        [("other", 0)] =
      Except.error (PopErr.parameterError "param" ["other"]) ∧
    ∃ e, populate_args [(⟨"param", Kind.KEYWORD_ONLY, none⟩ : Param Nat)]
        [("other", 0)] = Except.error e :=
  C2_missing_parameter _ _ _ (by decide) rfl (by decide)

/-- C3: for a declared parameter with a default whose name the data mapping
lacks, the per-parameter resolution does not raise: it yields the declared
default as-is, and in any successful resolution that value appears in the
resolved call (in the positional list or under the parameter name in the
keyword mapping). -/
theorem C3_default_used {α : Type} (params : List (Param α)) (p : Param α)
    (d : α) (data_map : List (String × α)) (args : List α)
    (kwargs : List (String × α)) (hdef : p.default = some d)
    (hmiss : dict_get data_map p.name = none) (hmem : p ∈ params)
    (hnodup : (params.map Param.name).Nodup)
    (hok : populate_args params data_map = Except.ok (args, kwargs)) :
    _get_arg_value p data_map = Except.ok d ∧
    (d ∈ args ∨ (p.name, d) ∈ kwargs) := by
  have hget : _get_arg_value p data_map = Except.ok d :=
    _get_arg_value_of_default hdef hmiss
  refine ⟨hget, ?_⟩
  obtain ⟨ha, hkw⟩ := populate_loop_ok_spec data_map params [] [] args kwargs
    hnodup (by simp [dict_keys]) hok
  cases hk : p.kind with
  | POSITIONAL_ONLY =>
    left
    rw [ha]
    simp only [List.nil_append, positionalResolved]
    exact List.mem_filterMap.mpr ⟨p, hmem, by simp [hk, hget, Except.toOption]⟩
  | POSITIONAL_OR_KEYWORD =>
    right
    rw [hkw]
    simp only [List.nil_append, keywordResolved]
    exact List.mem_filterMap.mpr ⟨p, hmem, by simp [hk, hget, Except.toOption]⟩
  | KEYWORD_ONLY =>
    right
    rw [hkw]
    simp only [List.nil_append, keywordResolved]
    exact List.mem_filterMap.mpr ⟨p, hmem, by simp [hk, hget, Except.toOption]⟩
  | VAR_KEYWORD =>
    obtain ⟨e, he⟩ := populate_loop_error_of_mem hmem (Or.inl hk) [] []
    have he2 : populate_args params data_map = Except.error e := he
    rw [hok] at he2
    cases he2
  | VAR_POSITIONAL =>
    obtain ⟨e, he⟩ := populate_loop_error_of_mem hmem (Or.inr (Or.inl hk)) [] []
    have he2 : populate_args params data_map = Except.error e := he
    rw [hok] at he2
    cases he2

/-- C3 witness: the defaults scenario, `g(a, b=1, c=2)` with the mapping
holding a and b: the omitted c resolves to its default 2 and lands in the
keyword mapping. -/
theorem C3_witness :
    _get_arg_value (⟨"c", Kind.POSITIONAL_OR_KEYWORD, some 2⟩ : Param Nat)
        [("a", 1), ("b", 3)] = Except.ok 2 ∧
    ((2 : Nat) ∈ ([] : List Nat) ∨
      ("c", (2 : Nat)) ∈ [("a", (1 : Nat)), ("b", 3), ("c", 2)]) :=
  C3_default_used
    [⟨"a", Kind.POSITIONAL_OR_KEYWORD, none⟩,
      ⟨"b", Kind.POSITIONAL_OR_KEYWORD, some 1⟩,
      ⟨"c", Kind.POSITIONAL_OR_KEYWORD, some 2⟩]
    ⟨"c", Kind.POSITIONAL_OR_KEYWORD, some 2⟩ 2 [("a", 1), ("b", 3)] []
    [("a", 1), ("b", 3), ("c", 2)] rfl (by decide) (by decide) (by decide)
    (by decide)

/-- C4 counterexample: the callable `f(a, *args)` declares a
variable-positional parameter, yet on the empty data mapping resolve and
invoke raise the Missing Parameter error for a, not the unsupported
parameter kind TypeError, so the error kind does depend on the data
mapping contents. -/
theorem C4_counterexample :
    populate_args
        [⟨"a", Kind.POSITIONAL_OR_KEYWORD, none⟩,
          ⟨"args", Kind.VAR_POSITIONAL, none⟩]
        ([] : List (String × Nat)) =
      Except.error (PopErr.parameterError "a" []) ∧
    call_with_args
        (⟨[⟨"a", Kind.POSITIONAL_OR_KEYWORD, none⟩,
            ⟨"args", Kind.VAR_POSITIONAL, none⟩],
          fun _ => Except.ok 0⟩ : Func Nat Nat Unit) [] =
      Except.error (CallErr.resolution (PopErr.parameterError "a" [])) ∧
    PopErr.isTypeError (PopErr.parameterError "a" []) = false := by
  refine ⟨by decide, by decide, rfl⟩

/-- C4 (amended): for a callable declaring a variable-positional or
variable-keyword parameter, resolve and invoke always raise an error, for
every data mapping; the error is the unsupported parameter kind TypeError
for that parameter whenever every parameter declared before it is of a
supported kind and resolves from the mapping (an earlier failing parameter
raises its own Missing Parameter error first). -/
theorem C4_unsupported_kind {α β ε : Type} (pre post : List (Param α))
    (p : Param α) (body : List (String × α) → Except ε β)
    (data_map : List (String × α))
    (hk : p.kind = Kind.VAR_POSITIONAL ∨ p.kind = Kind.VAR_KEYWORD) :
    (∃ e, populate_args (pre ++ p :: post) data_map = Except.error e) ∧
    (∃ e, call_with_args ⟨pre ++ p :: post, body⟩ data_map = Except.error e) ∧
    ((∀ q ∈ pre,
        (q.kind = Kind.POSITIONAL_ONLY ∨ q.kind = Kind.POSITIONAL_OR_KEYWORD ∨
          q.kind = Kind.KEYWORD_ONLY) ∧
        ∃ v, _get_arg_value q data_map = Except.ok v) →
      populate_args (pre ++ p :: post) data_map =
        Except.error (PopErr.typeError (unsupportedMsg p)) ∧
      call_with_args ⟨pre ++ p :: post, body⟩ data_map =
        Except.error (CallErr.resolution (PopErr.typeError (unsupportedMsg p)))) := by
  have hmem : p ∈ pre ++ p :: post :=
    List.mem_append_right pre (List.mem_cons_self p post)
  have hvar : p.kind = Kind.VAR_KEYWORD ∨ p.kind = Kind.VAR_POSITIONAL ∨
      (p.default = none ∧ dict_get data_map p.name = none) := by
    rcases hk with h | h
    · exact Or.inr (Or.inl h)
    · exact Or.inl h
  obtain ⟨e, he⟩ := populate_loop_error_of_mem hmem hvar [] []
  have hpop : populate_args (pre ++ p :: post) data_map = Except.error e := he
  refine ⟨⟨e, hpop⟩, ⟨CallErr.resolution e, by simp [call_with_args, hpop]⟩, ?_⟩
  intro hpre
  have hmsg : populate_args (pre ++ p :: post) data_map =
      Except.error (PopErr.typeError (unsupportedMsg p)) :=
    populate_loop_prefix_unsupported data_map p post hk pre hpre [] []
  exact ⟨hmsg, by simp [call_with_args, hmsg]⟩

/-- C4 witness: the callable `f(*args)` (a lone variable-positional
parameter, nothing before it) on the empty mapping. -/
theorem C4_witness :
    (∃ e, populate_args [(⟨"args", Kind.VAR_POSITIONAL, none⟩ : Param Nat)] [] =
      Except.error e) ∧
    (∃ e, call_with_args
        (⟨[⟨"args", Kind.VAR_POSITIONAL, none⟩],
          fun _ => Except.ok 0⟩ : Func Nat Nat Unit) [] = Except.error e) ∧
    ((∀ q ∈ ([] : List (Param Nat)),
        (q.kind = Kind.POSITIONAL_ONLY ∨ q.kind = Kind.POSITIONAL_OR_KEYWORD ∨
          q.kind = Kind.KEYWORD_ONLY) ∧
        ∃ v, _get_arg_value q ([] : List (String × Nat)) = Except.ok v) →
      populate_args [(⟨"args", Kind.VAR_POSITIONAL, none⟩ : Param Nat)] [] =
        Except.error (PopErr.typeError
          (unsupportedMsg (⟨"args", Kind.VAR_POSITIONAL, none⟩ : Param Nat))) ∧
      call_with_args
          (⟨[⟨"args", Kind.VAR_POSITIONAL, none⟩],
            fun _ => Except.ok 0⟩ : Func Nat Nat Unit) [] =
        Except.error (CallErr.resolution (PopErr.typeError
          (unsupportedMsg (⟨"args", Kind.VAR_POSITIONAL, none⟩ : Param Nat))))) :=
  C4_unsupported_kind [] [] ⟨"args", Kind.VAR_POSITIONAL, none⟩
    (fun _ => Except.ok 0) [] (Or.inl rfl)

/-- C5: the unsupported parameter kind error is a TypeError, a distinct
exception class from ParameterError, and its payload determines both the
offending parameter name and which unsupported kind triggered it: the two
message builders are injective in the name and never collide with each
other, and every TypeError `populate_args` raises is the message of an
actual variable-arity parameter of the signature. -/
theorem C5_error_identity :
    (∀ (name : String) (va : List String) (msg : String),
      PopErr.parameterError name va ≠ PopErr.typeError msg) ∧
    (∀ n m : String, varKeywordMsg n = varKeywordMsg m → n = m) ∧
    (∀ n m : String, varPositionalMsg n = varPositionalMsg m → n = m) ∧
    (∀ n m : String, varKeywordMsg n ≠ varPositionalMsg m) ∧
    (∀ (α : Type) (params : List (Param α)) (data_map : List (String × α))
        (msg : String),
      populate_args params data_map = Except.error (PopErr.typeError msg) →
      ∃ p ∈ params,
        (p.kind = Kind.VAR_KEYWORD ∧ msg = varKeywordMsg p.name) ∨
        (p.kind = Kind.VAR_POSITIONAL ∧ msg = varPositionalMsg p.name)) :=
  ⟨fun _ _ _ h => PopErr.noConfusion h,
    fun _ _ h => varKeywordMsg_inj h,
    fun _ _ h => varPositionalMsg_inj h,
    varKeywordMsg_ne_varPositionalMsg,
    fun _ _ _ _ h => populate_loop_typeError_shape h⟩

/-- C6: in every successful resolution, the positional values returned by
`populate_args` are exactly the resolved values of the positional-only
parameters, value for value, in their declared order. -/
theorem C6_positional_order {α : Type} (params : List (Param α))
    (data_map : List (String × α)) (args : List α)
    (kwargs : List (String × α))
    (hok : populate_args params data_map = Except.ok (args, kwargs)) :
    args = positionalResolved params data_map := by
  simpa using populate_loop_args_spec data_map params [] [] args kwargs hok

/-- C6 witness: a signature with a positional-only x and a
positional-or-keyword y, both present in the mapping. -/
theorem C6_witness :
    ([7] : List Nat) =
      positionalResolved
        [⟨"x", Kind.POSITIONAL_ONLY, none⟩, ⟨"y", Kind.POSITIONAL_OR_KEYWORD, none⟩]
        [("x", 7), ("y", 8)] :=
  C6_positional_order _ _ _ [("y", 8)] (by decide)

/-- C7 counterexample: the mappings {} and {z: 0} agree on the only declared
parameter name a (absent from both) and differ only in the extra key z, yet
resolve raises ParameterError("a", []) on one and ParameterError("a", ["z"])
on the other: the errors are not equal, because the diagnostic valid_args
payload records each mapping's own keys. -/
theorem C7_counterexample :
    dict_get ([] : List (String × Nat)) "a" = dict_get [("z", (0 : Nat))] "a" ∧
    populate_args [⟨"a", Kind.POSITIONAL_OR_KEYWORD, none⟩]
        ([] : List (String × Nat)) =
      Except.error (PopErr.parameterError "a" []) ∧
    populate_args [⟨"a", Kind.POSITIONAL_OR_KEYWORD, none⟩]
        [("z", (0 : Nat))] =
      Except.error (PopErr.parameterError "a" ["z"]) ∧
    PopErr.parameterError "a" [] ≠ PopErr.parameterError "a" ["z"] :=
  ⟨rfl, by decide, by decide, by decide⟩

/-- C7 (amended): for two data mappings that agree on every declared
parameter name and differ only in extra keys, resolve and invoke behave
identically up to the diagnostic valid_args payload of a Missing Parameter
error: successes are equal outright, and errors are equal once that payload
is erased (the payload itself records each mapping's own key set). -/
theorem C7_extra_keys_ignored {α β ε : Type} (func : Func α β ε)
    (dm1 dm2 : List (String × α))
    (hagree : ∀ p ∈ func.params, dict_get dm1 p.name = dict_get dm2 p.name) :
    (populate_args func.params dm1).mapError eraseValidArgs =
      (populate_args func.params dm2).mapError eraseValidArgs ∧
    (∀ r, populate_args func.params dm1 = Except.ok r ↔
      populate_args func.params dm2 = Except.ok r) ∧
    (call_with_args func dm1).mapError eraseCallValidArgs =
      (call_with_args func dm2).mapError eraseCallValidArgs ∧
    (∀ b, call_with_args func dm1 = Except.ok b ↔
      call_with_args func dm2 = Except.ok b) := by
  have h1 := populate_args_congr func.params hagree
  have h3 := call_with_args_congr func hagree
  exact ⟨h1, fun r => mapError_ok_iff eraseValidArgs h1 r, h3,
    fun b => mapError_ok_iff eraseCallValidArgs h3 b⟩

/-- C7 witness: `square(n)` on {n: 5} and on {n: 5, s: 4}, which agree on n
and differ only in the unused key s. -/
theorem C7_witness :
    (populate_args
        (Func.params (⟨[⟨"n", Kind.POSITIONAL_OR_KEYWORD, none⟩],
          fun env => Except.ok ((dict_get env "n").getD 0 ^ 2)⟩ : Func Nat Nat Unit))
        [("n", 5)]).mapError eraseValidArgs =
      (populate_args
        (Func.params (⟨[⟨"n", Kind.POSITIONAL_OR_KEYWORD, none⟩],
          fun env => Except.ok ((dict_get env "n").getD 0 ^ 2)⟩ : Func Nat Nat Unit))
        [("n", 5), ("s", 4)]).mapError eraseValidArgs ∧
    (∀ r, populate_args
        (Func.params (⟨[⟨"n", Kind.POSITIONAL_OR_KEYWORD, none⟩],
          fun env => Except.ok ((dict_get env "n").getD 0 ^ 2)⟩ : Func Nat Nat Unit))
        [("n", 5)] = Except.ok r ↔
      populate_args
        (Func.params (⟨[⟨"n", Kind.POSITIONAL_OR_KEYWORD, none⟩],
          fun env => Except.ok ((dict_get env "n").getD 0 ^ 2)⟩ : Func Nat Nat Unit))
        [("n", 5), ("s", 4)] = Except.ok r) ∧
    (call_with_args
        (⟨[⟨"n", Kind.POSITIONAL_OR_KEYWORD, none⟩],
          fun env => Except.ok ((dict_get env "n").getD 0 ^ 2)⟩ : Func Nat Nat Unit)
        [("n", 5)]).mapError eraseCallValidArgs =
      (call_with_args
        (⟨[⟨"n", Kind.POSITIONAL_OR_KEYWORD, none⟩],
          fun env => Except.ok ((dict_get env "n").getD 0 ^ 2)⟩ : Func Nat Nat Unit)
        [("n", 5), ("s", 4)]).mapError eraseCallValidArgs ∧
    (∀ b, call_with_args
        (⟨[⟨"n", Kind.POSITIONAL_OR_KEYWORD, none⟩],
          fun env => Except.ok ((dict_get env "n").getD 0 ^ 2)⟩ : Func Nat Nat Unit)
        [("n", 5)] = Except.ok b ↔
      call_with_args
        (⟨[⟨"n", Kind.POSITIONAL_OR_KEYWORD, none⟩],
          fun env => Except.ok ((dict_get env "n").getD 0 ^ 2)⟩ : Func Nat Nat Unit)
        [("n", 5), ("s", 4)] = Except.ok b) :=
  C7_extra_keys_ignored _ [("n", 5)] [("n", 5), ("s", 4)] (by decide)

/-- C8: when resolution succeeds and the callable body itself raises, the
raised exception propagates through `call_with_args` unchanged, with no
catching, wrapping or translation. -/
theorem C8_callable_error_propagates {α β ε : Type} (func : Func α β ε)
    (arg_data : List (String × α)) (args : List α)
    (kwargs env : List (String × α)) (e : ε)
    (hpop : populate_args func.params arg_data = Except.ok (args, kwargs))
    (hbind : bindCall func.params args kwargs = some env)
    (hbody : func.body env = Except.error e) :
    call_with_args func arg_data = Except.error (CallErr.raised e) := by
  simp [call_with_args, hpop, callPython, hbind, hbody]

/-- C8 witness: a callable whose body always raises 42, reached through a
successful resolution. -/
theorem C8_witness :
    call_with_args
        (⟨[⟨"n", Kind.POSITIONAL_OR_KEYWORD, none⟩],
          fun _ => Except.error 42⟩ : Func Nat Nat Nat)
        [("n", 1)] = Except.error (CallErr.raised 42) :=
  C8_callable_error_propagates _ [("n", 1)] [] [("n", 1)] [("n", 1)] 42
    (by decide) (by decide) rfl

/-- C9: neither resolve nor invoke mutates the data mapping: with the
mapping threaded as state through every dict operation the source performs,
both return it exactly as given, while computing the same result as the
plain embedding. -/
theorem C9_data_mapping_unchanged {α β ε : Type} (params : List (Param α))
    (func : Func α β ε) (data_map : List (String × α)) :
    (populate_args_st params data_map).2 = data_map ∧
    (populate_args_st params data_map).1 = populate_args params data_map ∧
    (call_with_args_st func data_map).2 = data_map ∧
    (call_with_args_st func data_map).1 = call_with_args func data_map := by
  simp [populate_args_st_spec, call_with_args_st_spec]

/-- C10: for a signature with no positional-only parameters (and the
distinct names Python guarantees), a successful resolution returns an empty
positional list, the keyword mapping is exactly the resolved entries of the
declared parameters under their own names, and every declared parameter is
supplied there under its own name. -/
theorem C10_no_positional_args {α : Type} (params : List (Param α))
    (data_map : List (String × α)) (args : List α)
    (kwargs : List (String × α))
    (hnopos : ∀ p ∈ params, p.kind ≠ Kind.POSITIONAL_ONLY)
    (hnodup : (params.map Param.name).Nodup)
    (hok : populate_args params data_map = Except.ok (args, kwargs)) :
    args = [] ∧ kwargs = keywordResolved params data_map ∧
    ∀ p ∈ params, ∃ v, _get_arg_value p data_map = Except.ok v ∧
      (p.name, v) ∈ kwargs := by
  obtain ⟨ha, hkw⟩ := populate_loop_ok_spec data_map params [] [] args kwargs
    hnodup (by simp [dict_keys]) hok
  have ha2 : args = [] := by
    rw [ha, positionalResolved_eq_nil data_map hnopos]
    rfl
  have hkw2 : kwargs = keywordResolved params data_map := by
    rw [hkw]
    simp
  refine ⟨ha2, hkw2, ?_⟩
  intro p hp
  cases hv : _get_arg_value p data_map with
  | error e =>
    obtain ⟨hdnone, hgnone⟩ := _get_arg_value_error_cases hv
    obtain ⟨e2, he2⟩ := populate_loop_error_of_mem hp
      (Or.inr (Or.inr ⟨hdnone, hgnone⟩)) [] []
    have he3 : populate_args params data_map = Except.error e2 := he2
    rw [hok] at he3
    cases he3
  | ok v =>
    refine ⟨v, rfl, ?_⟩
    rw [hkw2]
    simp only [keywordResolved]
    exact List.mem_filterMap.mpr ⟨p, hp, by simp [hnopos p hp, hv, Except.toOption]⟩

/-- C10 witness: `f(a, *, k=9)` with the mapping {a: 1, z: 5}. -/
theorem C10_witness :
    ([] : List Nat) = [] ∧
    ([("a", (1 : Nat)), ("k", 9)] =
      keywordResolved
        [⟨"a", Kind.POSITIONAL_OR_KEYWORD, none⟩, ⟨"k", Kind.KEYWORD_ONLY, some 9⟩]
        [("a", 1), ("z", 5)]) ∧
    ∀ p ∈ [(⟨"a", Kind.POSITIONAL_OR_KEYWORD, none⟩ : Param Nat),
        ⟨"k", Kind.KEYWORD_ONLY, some 9⟩],
      ∃ v, _get_arg_value p [("a", 1), ("z", 5)] = Except.ok v ∧
        (p.name, v) ∈ [("a", (1 : Nat)), ("k", 9)] :=
  C10_no_positional_args _ [("a", 1), ("z", 5)] [] [("a", 1), ("k", 9)]
    (by decide) (by decide) (by decide)
